import Mathlib

/-!
Shallow embedding of `nakamoto-p2p/src/prototype.rs` (module `protocol`).

Modelling conventions:
  * `PeerId` (a socket address in the source) is a natural number.
  * `HashMap` / `HashSet` are association lists / duplicate-free lists; the
    hash-map `insert` replaces the previous binding, the hash-set `remove`
    drops every occurrence of the key, matching hash-container semantics.
  * The block tree collaborator is represented by its height, the only
    operation the embedded code calls (`self.tree.height()`).
  * `SystemTime::now()` (unix seconds, `i64`) and `time::Instant::now()`
    are passed to `step`/`receive` as explicit inputs `localTime : Int`
    and `now : Nat`; the `fastrand` call in `step` is an explicit `rng`
    input used as an index.
  * `todo!()` / `panic!` sites become the `Abort` error of an `Except`.
-/

namespace Nakamoto

/-- Peer identifier: a socket endpoint in the source (`PeerId = net::SocketAddr`). -/
abbrev PeerId := Nat

/-- `Height` is `u64` in the source; heights are modelled as naturals. -/
abbrev Height := Nat

/-- A time offset, in seconds (`pub type TimeOffset = i64`). -/
abbrev TimeOffset := Int

/-- `USER_AGENT` constant from the source. -/
def USER_AGENT : String := "/nakamoto:0.0.0/"

/-- `SYNC_THRESHOLD: Height = 144`. -/
def SYNC_THRESHOLD : Height := 144

/-- `PEER_CONNECTION_THRESHOLD: usize = 3`. -/
def PEER_CONNECTION_THRESHOLD : Nat := 3

/-- `MAX_TIME_ADJUSTMENT: TimeOffset = 70 * 60`. -/
def MAX_TIME_ADJUSTMENT : TimeOffset := 70 * 60

/-- `crate::peer::Link`: whether the connection is inbound or outbound. -/
inductive Link where
  | Outbound
  | Inbound
deriving DecidableEq, Repr

/-- Handshake sub-states (`enum Handshake`); `default()` is `AwaitingVersion`. -/
inductive Handshake where
  | AwaitingVersion
  | AwaitingVerack
  | Done
deriving DecidableEq, Repr

/-- Sync sub-states (`enum Synchronize`); `default()` is `RequestedHeaders`. -/
inductive Synchronize where
  | RequestedHeaders
  | HeadersReceived
  | Done
deriving DecidableEq, Repr

/-- `enum PeerState`. -/
inductive PeerState where
  | Handshake (h : Handshake)
  | Synchronize (s : Synchronize)
deriving DecidableEq, Repr

/-- The fields of `bitcoin::VersionMessage` that the embedded code reads or
writes.  The `receiver`/`sender` `Address` pairs are flattened into an
address and a service-flag word (`ServiceFlags` as a bit mask). -/
structure VersionMessage where
  version : Nat
  services : Nat
  timestamp : Int
  receiver_addr : PeerId
  receiver_services : Nat
  sender_addr : PeerId
  sender_services : Nat
  nonce : Nat
  user_agent : String
  start_height : Int
  relay : Bool
deriving DecidableEq, Repr

/-- `ServiceFlags::NETWORK` bit. -/
def NETWORK : Nat := 1

/-- `ServiceFlags::COMPACT_FILTERS` bit. -/
def COMPACT_FILTERS : Nat := 64

/-- `ServiceFlags::NONE`. -/
def NONE : Nat := 0

/-- `bitcoin::NetworkMessage`, restricted to the payloads the embedded code
matches on; every other message kind is collapsed into `Other`. -/
inductive NetworkMessage where
  | Version (v : VersionMessage)
  | Verack
  | Other
deriving DecidableEq, Repr

/-- `bitcoin::RawNetworkMessage`: a network magic plus a payload. -/
structure RawNetworkMessage where
  magic : Nat
  payload : NetworkMessage
deriving DecidableEq, Repr

/-- `struct Peer` from the source; `last_active : Option<time::Instant>` is an
optional instant (a natural). -/
structure Peer where
  address : PeerId
  local_address : PeerId
  height : Height
  time_offset : TimeOffset
  link : Link
  state : PeerState
  last_active : Option Nat
deriving DecidableEq, Repr

/-- `crate::peer::Config`.  Modelled from the spec: the `Config` struct lives
in `crate::peer`, outside the given source file; the spec enumerates its
options as `network` (determining the magic bytes), `protocol_version`,
`services`, `relay` and `user_agent`.  The network is represented directly by
its magic word. -/
structure Config where
  network_magic : Nat
  protocol_version : Nat
  services : Nat
  relay : Bool
  user_agent : String
deriving DecidableEq, Repr

/-- `enum State`: the global protocol state. -/
inductive State where
  | Connecting
  | InitialSync (p : PeerId)
  | Synced
deriving DecidableEq, Repr

/-- `enum Event<T>` with `T = RawNetworkMessage`.  The `Error` payload
(`crate::error::Error`) is never inspected by `step`, so it is dropped. -/
inductive Event where
  | Connected (addr : PeerId) (local_addr : PeerId) (link : Link)
  | Received (addr : PeerId) (msg : RawNetworkMessage)
  | Sent (addr : PeerId) (nbytes : Nat)
  | Error (addr : PeerId)
deriving DecidableEq, Repr

/-- The `panic!`/`todo!()` sites reachable from `step`:
`magicMismatch` is the `todo!()` on a magic mismatch in `receive`,
`unknownPeer` the `unwrap_or_else(panic)` when a `Received` event names an
unknown peer, and `aheadOfPeer` the `todo!()` in `Peer::receive_version`. -/
inductive Abort where
  | magicMismatch
  | unknownPeer
  | aheadOfPeer
deriving DecidableEq, Repr

/-- Hash-map insert (replaces any previous binding for the key). -/
def mapInsert (k : PeerId) (v : Peer) (m : List (PeerId × Peer)) :
    List (PeerId × Peer) :=
  (k, v) :: m.filter (fun kv => !(kv.1 == k))

/-- Hash-set insert. -/
def setInsert (a : PeerId) (l : List PeerId) : List PeerId :=
  if l.contains a then l else a :: l

/-- Hash-set remove. -/
def setRemove (a : PeerId) (l : List PeerId) : List PeerId :=
  l.filter (fun x => !(x == a))

/-- Modelled from the spec: the sample store of `AdjustedTime` from
`nakamoto-chain` (not part of the given source file).  Per the spec the clock
keeps one time-offset sample per peer identifier; `add_sample` records the
peer's offset.  The engine's `receive` calls this on handshake completion. -/
def addSample (a : PeerId) (off : TimeOffset) (samples : List (PeerId × TimeOffset)) :
    List (PeerId × TimeOffset) :=
  (a, off) :: samples.filter (fun kv => !(kv.1 == a))

/-- `start_height as Height` in `Peer::receive_version`: an `i32` cast to
`u64` (two's-complement wrap). -/
def i32AsU64 (s : Int) : Nat :=
  (s.emod (2 ^ 64)).toNat

/-- `start_height as i32` in `Rpc::version`: a `u64` truncated to `i32`. -/
def u64AsI32 (n : Nat) : Int :=
  let m : Nat := n % 2 ^ 32
  if m < 2 ^ 31 then (m : Int) else (m : Int) - 2 ^ 32

/-- `struct Rpc<T>`: the protocol engine.  `tree_height` stands for the block
tree collaborator (only `tree.height()` is called); `clock` is the sample
store of the network-adjusted clock. -/
structure Rpc where
  peers : List (PeerId × Peer)
  config : Config
  state : State
  tree_height : Height
  clock : List (PeerId × TimeOffset)
  connected : List PeerId
  disconnected : List PeerId
deriving DecidableEq, Repr

/-- `Peer::new`. -/
def Peer.new (address : PeerId) (local_address : PeerId) (state : PeerState)
    (link : Link) : Peer :=
  { address := address
    local_address := local_address
    height := 0
    time_offset := 0
    last_active := none
    state := state
    link := link }

/-- `Peer::receive_version`; `localTime` is the `SystemTime::now()` unix-second
reading made inside the function.  The `todo!()` guard compares the hard-coded
`height = 0` with `start_height as Height + 1`. -/
def Peer.receive_version (peer : Peer) (localTime : Int) (v : VersionMessage) :
    Except Abort Peer :=
  let height : Height := 0
  if height > i32AsU64 v.start_height + 1 then
    .error .aheadOfPeer
  else
    .ok { peer with
          height := i32AsU64 v.start_height
          time_offset := v.timestamp - localTime
          state := .Handshake .AwaitingVerack }

/-- `Peer::receive_verack`. -/
def Peer.receive_verack (peer : Peer) : Peer :=
  { peer with state := .Handshake .Done }

/-- `Rpc::new`. -/
def Rpc.new (tree : Height) (clock : List (PeerId × TimeOffset)) (config : Config) :
    Rpc :=
  { peers := []
    config := config
    state := .Connecting
    tree_height := tree
    clock := clock
    connected := []
    disconnected := [] }

/-- `Rpc::connect`: remove the address from `disconnected` and (re)insert a
fresh peer record.  Returns the updated engine and the boolean the source
returns (whether the peer was new); the caller in `step` ignores it. -/
def Rpc.connect (self : Rpc) (addr : PeerId) (local_addr : PeerId) (link : Link) :
    Rpc × Bool :=
  let self := { self with disconnected := setRemove addr self.disconnected }
  let isNew := (self.peers.lookup addr).isNone
  ({ self with
     peers := mapInsert addr (Peer.new addr local_addr (.Handshake .AwaitingVersion) link)
       self.peers },
   isNew)

/-- The minimum of `self.peers.values().map(|p| p.height).min()`. -/
def minHeights : List (PeerId × Peer) → Option Height
  | [] => none
  | (_, p) :: rest =>
    match minHeights rest with
    | none => some p.height
    | some m => some (Nat.min p.height m)

/-- `Rpc::is_synced`.  The only error the source can return here is
`Error::NotConnected` (empty peer table), modelled as `Option`:
`none` = `Err(NotConnected)`. -/
def Rpc.is_synced (self : Rpc) : Option Bool :=
  let height := self.tree_height
  match minHeights self.peers with
  | some peer_height =>
    some (decide (height ≥ peer_height) || decide (peer_height - height ≤ SYNC_THRESHOLD))
  | none => none

/-- `Rpc::version`: build a `version` message.  `localTime` is the
`SystemTime::now()` unix-second reading made inside the function. -/
def Rpc.version (self : Rpc) (localTime : Int) (addr : PeerId) (local_addr : PeerId)
    (start_height : Height) : NetworkMessage :=
  .Version
    { version := self.config.protocol_version
      services := self.config.services
      timestamp := localTime
      receiver_addr := addr
      receiver_services := NETWORK ||| COMPACT_FILTERS
      sender_addr := local_addr
      sender_services := NONE
      nonce := 0
      user_agent := USER_AGENT
      start_height := u64AsI32 start_height
      relay := self.config.relay }

/-- `Rpc::receive`.  `now` is the `time::Instant::now()` reading (for
`last_active`), `localTime` the unix-second reading used by
`Peer::receive_version` and `Rpc::version`. -/
def Rpc.receive (self : Rpc) (now : Nat) (localTime : Int) (addr : PeerId)
    (msg : RawNetworkMessage) :
    Except Abort (Rpc × List (PeerId × NetworkMessage)) :=
  if msg.magic = self.config.network_magic then
    match self.peers.lookup addr with
    | none => .error .unknownPeer
    | some peer =>
      -- the source first sets `peer.last_active = Some(now)` and then matches
      -- on `peer.state`; the `last_active` update is applied in each arm below
      -- (the match outcome is the same, since the update leaves `state` alone)
      match peer.state with
      | .Handshake .AwaitingVersion =>
        match msg.payload with
        | .Version v =>
          match Peer.receive_version { peer with last_active := some now } localTime v with
          | .error e => .error e
          | .ok peer2 =>
            match peer2.link with
            | .Outbound => .ok ({ self with peers := mapInsert addr peer2 self.peers }, [])
            | .Inbound =>
              .ok ({ self with peers := mapInsert addr peer2 self.peers },
                [(addr,
                  ({ self with peers := mapInsert addr peer2 self.peers }).version
                    localTime addr peer.local_address 0),
                 (addr, .Verack)])
        | _ =>
          .ok ({ self with
                 peers := mapInsert addr { peer with last_active := some now } self.peers },
            [])
      | .Handshake .AwaitingVerack =>
        match msg.payload with
        | .Verack =>
          match (Peer.receive_verack { peer with last_active := some now }).link with
          | .Outbound =>
            .ok ({ self with
                   peers := mapInsert addr
                     (Peer.receive_verack { peer with last_active := some now }) self.peers
                   connected := setInsert addr self.connected
                   clock := addSample addr
                     (Peer.receive_verack { peer with last_active := some now }).time_offset
                     self.clock },
              [(addr, .Verack)])
          | .Inbound =>
            .ok ({ self with
                   peers := mapInsert addr
                     (Peer.receive_verack { peer with last_active := some now }) self.peers
                   connected := setInsert addr self.connected
                   clock := addSample addr
                     (Peer.receive_verack { peer with last_active := some now }).time_offset
                     self.clock },
              [])
        | _ =>
          .ok ({ self with
                 peers := mapInsert addr { peer with last_active := some now } self.peers },
            [])
      | .Handshake .Done =>
        .ok ({ self with
               peers := mapInsert addr
                 { peer with
                   last_active := some now
                   state := .Synchronize .RequestedHeaders }
                 self.peers }, [])
      | .Synchronize _ =>
        .ok ({ self with
               peers := mapInsert addr { peer with last_active := some now } self.peers },
          [])
  else
    -- `todo!()` at the magic-mismatch check.
    .error .magicMismatch

/-- The tail of `Rpc::step` (the global-state re-evaluation after the event is
handled): if at least `PEER_CONNECTION_THRESHOLD` peers are connected, set the
state from `is_synced`, choosing the IBD peer with the random index `rng`. -/
def Rpc.syncCheck (self : Rpc) (rng : Nat) : Rpc :=
  if self.connected.length ≥ PEER_CONNECTION_THRESHOLD then
    match self.is_synced with
    | some true => { self with state := .Synced }
    | some false =>
      let ix := rng % self.connected.length
      -- the list is non-empty here (length ≥ 3), so `getD` is the `unwrap`
      let peer := self.connected.getD ix 0
      { self with state := .InitialSync peer }
    | none => { self with state := .Connecting }
  else
    self

/-- Wrap the outbound payloads into `RawNetworkMessage`s with the configured
network magic (the closing `map` of `Rpc::step`). -/
def Rpc.wrapOut (self : Rpc) (out : List (PeerId × NetworkMessage)) :
    List (PeerId × RawNetworkMessage) :=
  out.map (fun p => (p.1, { magic := self.config.network_magic, payload := p.2 }))

/-- `Rpc::step` (the `Protocol` impl): process one event, re-evaluate the
global state, and return the outbound messages wrapped with the network
magic. -/
def Rpc.step (self : Rpc) (now : Nat) (localTime : Int) (rng : Nat) (event : Event) :
    Except Abort (Rpc × List (PeerId × RawNetworkMessage)) :=
  match event with
  | .Connected addr local_addr link =>
    .ok (((self.connect addr local_addr link).1).syncCheck rng,
      ((((self.connect addr local_addr link).1).syncCheck rng)).wrapOut
        (match link with
         | .Outbound =>
           [(addr, ((self.connect addr local_addr link).1).version localTime addr local_addr 0)]
         | .Inbound => []))
  | .Received addr msg =>
    match self.receive now localTime addr msg with
    | .error e => .error e
    | .ok (s2, outbound) =>
      .ok (s2.syncCheck rng, (s2.syncCheck rng).wrapOut outbound)
  | .Sent _ _ =>
    .ok (self.syncCheck rng, [])
  | .Error addr =>
    .ok (({ self with
            connected := setRemove addr self.connected
            disconnected := setInsert addr self.disconnected }).syncCheck rng, [])

/-- One input to `step`: the event together with the readings of the monotonic
clock, the unix clock and the random source made during that step. -/
structure Input where
  now : Nat
  localTime : Int
  rng : Nat
  event : Event
deriving DecidableEq, Repr

/-- Run the engine over a finite sequence of events, discarding outbound
messages. -/
def Rpc.run (self : Rpc) : List Input → Except Abort Rpc
  | [] => .ok self
  | i :: rest =>
    match self.step i.now i.localTime i.rng i.event with
    | .error e => .error e
    | .ok (s, _) => s.run rest

/-- Extract the engine from a successful run. -/
def getOk : Except Abort Rpc → Option Rpc
  | .ok s => some s
  | .error _ => none

/-!
A deterministic in-memory simulator for two engines, following the test
simulator in the source (`mod simulator`): every `(receiver, msg)` pair an
engine emits is queued and later delivered to its addressee as a
`Received` event carrying the sender's address.
-/

/-- Two engines plus a FIFO queue of in-flight messages
`(destination address, sender address, message)`. -/
structure Sim where
  aAddr : PeerId
  bAddr : PeerId
  alice : Rpc
  bob : Rpc
  queue : List (PeerId × PeerId × RawNetworkMessage)
deriving DecidableEq, Repr

/-- Deliver the frontmost queued message to the engine it addresses, queueing
that engine's outbound messages in turn. -/
def Sim.deliver (s : Sim) (now : Nat) (localTime : Int) (rng : Nat) :
    Except Abort Sim :=
  match s.queue with
  | [] => .ok s
  | (dest, src, msg) :: rest =>
    if dest = s.bAddr then
      match s.bob.step now localTime rng (.Received src msg) with
      | .error e => .error e
      | .ok (bob, out) =>
        .ok { s with bob := bob
                     queue := rest ++ out.map (fun p => (p.1, s.bAddr, p.2)) }
    else if dest = s.aAddr then
      match s.alice.step now localTime rng (.Received src msg) with
      | .error e => .error e
      | .ok (alice, out) =>
        .ok { s with alice := alice
                     queue := rest ++ out.map (fun p => (p.1, s.aAddr, p.2)) }
    else
      .ok { s with queue := rest }

/-- Deliver up to four messages (the bound the handshake-symmetry law
allows). -/
def Sim.runFour (now : Nat) (localTime : Int) (rng : Nat) (s : Sim) :
    Except Abort Sim :=
  match s.deliver now localTime rng with
  | .error e => .error e
  | .ok s1 =>
    match s1.deliver now localTime rng with
    | .error e => .error e
    | .ok s2 =>
      match s2.deliver now localTime rng with
      | .error e => .error e
      | .ok s3 => s3.deliver now localTime rng

/-- Initial simulation state: two fresh engines sharing a configuration; the
engine at `a` handles `Connected(b, a, Outbound)`, the engine at `b` handles
`Connected(a, b, Inbound)`, and their outbound messages are queued. -/
def Sim.init (a b : PeerId) (tree : Height) (cfg : Config) (now : Nat)
    (localTime : Int) (rng : Nat) : Except Abort Sim :=
  match (Rpc.new tree [] cfg).step now localTime rng (.Connected b a .Outbound) with
  | .error e => .error e
  | .ok (alice, outA) =>
    match (Rpc.new tree [] cfg).step now localTime rng (.Connected a b .Inbound) with
    | .error e => .error e
    | .ok (bob, outB) =>
      .ok { aAddr := a
            bAddr := b
            alice := alice
            bob := bob
            queue := outA.map (fun p => (p.1, a, p.2)) ++
              outB.map (fun p => (p.1, b, p.2)) }

/-- A peer state counts as post-handshake when it is `Handshake(Done)` or any
`Synchronize(_)`. -/
def isPostHandshake : PeerState → Bool
  | .Handshake .Done => true
  | .Synchronize _ => true
  | _ => false

/-!  Helper lemmas about the set and map operations.  -/

theorem mem_setInsert {a x : PeerId} {l : List PeerId} :
    x ∈ setInsert a l ↔ x = a ∨ x ∈ l := by
  unfold setInsert
  split
  · next h =>
    have : a ∈ l := by simpa using h
    constructor
    · exact fun hx => Or.inr hx
    · rintro (rfl | hx)
      · exact this
      · exact hx
  · simp

theorem mem_setRemove {a x : PeerId} {l : List PeerId} :
    x ∈ setRemove a l ↔ x ≠ a ∧ x ∈ l := by
  unfold setRemove
  simp [List.mem_filter, and_comm]

theorem mem_setInsert_self (a : PeerId) (l : List PeerId) : a ∈ setInsert a l :=
  mem_setInsert.mpr (Or.inl rfl)

theorem not_mem_setRemove_self (a : PeerId) (l : List PeerId) :
    a ∉ setRemove a l := by
  intro h
  exact absurd rfl (mem_setRemove.mp h).1

theorem setRemove_idem (a : PeerId) (l : List PeerId) :
    setRemove a (setRemove a l) = setRemove a l := by
  induction l with
  | nil => rfl
  | cons x t ih =>
    by_cases hx : x = a
    · simp only [setRemove] at ih ⊢
      rw [List.filter_cons_of_neg (by simp [hx])]
      exact ih
    · simp only [setRemove] at ih ⊢
      rw [List.filter_cons_of_pos (by simp [hx]), List.filter_cons_of_pos (by simp [hx]), ih]

theorem setInsert_idem (a : PeerId) (l : List PeerId) :
    setInsert a (setInsert a l) = setInsert a l := by
  unfold setInsert
  split
  · next h => simp [h]
  · simp

theorem lookup_mapInsert_self (k : PeerId) (v : Peer) (m : List (PeerId × Peer)) :
    (mapInsert k v m).lookup k = some v := by
  simp [mapInsert, List.lookup]

theorem lookup_mapInsert_ne (k : PeerId) (v : Peer) (m : List (PeerId × Peer))
    (p : PeerId) (h : p ≠ k) : (mapInsert k v m).lookup p = m.lookup p := by
  unfold mapInsert
  rw [List.lookup, show (p == k) = false from by simpa using h]
  induction m with
  | nil => rfl
  | cons kv t ih =>
    by_cases hk : kv.1 = k
    · rw [List.filter_cons_of_neg (by simp [hk])]
      rw [ih]
      conv_rhs => rw [List.lookup]
      rw [show (p == kv.1) = false from by simp [hk, h]]
    · rw [List.filter_cons_of_pos (by simp [hk])]
      obtain ⟨k1, v1⟩ := kv
      rw [List.lookup, List.lookup]
      by_cases hp : p = k1
      · simp [hp]
      · rw [show (p == k1) = false from by simpa using hp]
        exact ih

theorem lookup_mem {l : List (PeerId × Peer)} {a : PeerId} {b : Peer}
    (h : l.lookup a = some b) : (a, b) ∈ l := by
  induction l with
  | nil => simp [List.lookup] at h
  | cons kv t ih =>
    rw [List.lookup] at h
    split at h
    · next heq =>
      obtain ⟨rfl⟩ : a = kv.1 := by simpa using heq
      injection h with h
      rw [← h]
      exact List.mem_cons_self _ _
    · exact List.mem_cons_of_mem _ (ih h)

/-!  `syncCheck` only changes the `state` field.  -/

theorem syncCheck_peers (s : Rpc) (rng : Nat) : (s.syncCheck rng).peers = s.peers := by
  unfold Rpc.syncCheck; repeat' split
  all_goals rfl

theorem syncCheck_config (s : Rpc) (rng : Nat) :
    (s.syncCheck rng).config = s.config := by
  unfold Rpc.syncCheck; repeat' split
  all_goals rfl

theorem syncCheck_clock (s : Rpc) (rng : Nat) : (s.syncCheck rng).clock = s.clock := by
  unfold Rpc.syncCheck; repeat' split
  all_goals rfl

theorem syncCheck_connected (s : Rpc) (rng : Nat) :
    (s.syncCheck rng).connected = s.connected := by
  unfold Rpc.syncCheck; repeat' split
  all_goals rfl

theorem syncCheck_disconnected (s : Rpc) (rng : Nat) :
    (s.syncCheck rng).disconnected = s.disconnected := by
  unfold Rpc.syncCheck; repeat' split
  all_goals rfl

/-!  Concrete sample data used by witnesses and counterexamples.  -/

/-- A sample configuration: network magic 7 and a user agent that differs from
the `USER_AGENT` constant. -/
def cfg7 : Config :=
  { network_magic := 7
    protocol_version := 70012
    services := 9
    relay := true
    user_agent := "ua-x" }

/-- A well-formed `version` frame under magic 7, with the given timestamp and
start height. -/
def verFrame (ts : Int) (sh : Int) : RawNetworkMessage :=
  { magic := 7
    payload := .Version
      { version := 70001
        services := 1
        timestamp := ts
        receiver_addr := 0
        receiver_services := 0
        sender_addr := 1
        sender_services := 0
        nonce := 4
        user_agent := "peer"
        start_height := sh
        relay := false } }

/-- A `verack` frame under magic 7. -/
def verackFrame : RawNetworkMessage := { magic := 7, payload := .Verack }

/-- Claim C2: with a non-empty peer table, `is_synced` returns `Ok(true)` iff
`tree.height ≥ min_peer_height` or `min_peer_height − tree.height ≤ 144`; in
particular a single peer at `H + 144` reports synced and a single peer at
`H + 145` does not. -/
theorem is_synced_threshold :
    (∀ (s : Rpc) (m : Height), minHeights s.peers = some m →
      (s.is_synced = some true ↔
        s.tree_height ≥ m ∨ m - s.tree_height ≤ SYNC_THRESHOLD)) ∧
    (∀ s : Rpc, s.peers ≠ [] → ∃ m, minHeights s.peers = some m) ∧
    (∀ (s : Rpc) (q : PeerId) (p : Peer), s.peers = [(q, p)] →
      p.height = s.tree_height + 144 → s.is_synced = some true) ∧
    (∀ (s : Rpc) (q : PeerId) (p : Peer), s.peers = [(q, p)] →
      p.height = s.tree_height + 145 → s.is_synced = some false) := by
  refine ⟨?_, ?_, ?_, ?_⟩
  · intro s m hm
    unfold Rpc.is_synced
    rw [hm]
    simp [SYNC_THRESHOLD]
  · intro s h
    match hp : s.peers with
    | [] => exact absurd hp h
    | (q, p) :: rest =>
      match h2 : minHeights rest with
      | none => exact ⟨p.height, by simp [minHeights, h2]⟩
      | some m => exact ⟨Nat.min p.height m, by simp [minHeights, h2]⟩
  · intro s q p hp hh
    unfold Rpc.is_synced
    rw [hp]
    simp [minHeights, hh, SYNC_THRESHOLD]
  · intro s q p hp hh
    unfold Rpc.is_synced
    rw [hp]
    simp [minHeights, hh, SYNC_THRESHOLD]

/-- Single-peer engines at the sync boundary: heights `H + 144` and `H + 145`
over tree height `H = 10`. -/
def rpcAtBoundary (h : Height) : Rpc :=
  { Rpc.new 10 [] cfg7 with
    peers := [(1, { Peer.new 1 0 (.Handshake .Done) .Outbound with height := h })] }

/-- Witness for claim C2 at tree height 10: a peer at 154 is within the
threshold, a peer at 155 is not. -/
theorem is_synced_threshold_witness :
    (rpcAtBoundary 154).is_synced = some true ∧
    (rpcAtBoundary 155).is_synced = some false :=
  ⟨is_synced_threshold.2.2.1 (rpcAtBoundary 154) 1 _ rfl rfl,
   is_synced_threshold.2.2.2 (rpcAtBoundary 155) 1 _ rfl rfl⟩

/-- An engine that knows peer 1 (awaiting its version) under magic 7. -/
def rpcMagic : Rpc :=
  { Rpc.new 5 [] cfg7 with
    peers := [(1, Peer.new 1 0 (.Handshake .AwaitingVersion) .Outbound)] }

/-- Claim C3: on a frame whose magic (0) differs from the configured magic (7)
the engine does not record the peer as failed and continue — it aborts at the
`todo!()` in `Rpc::receive` before touching any state. -/
theorem magic_mismatch_aborts_engine :
    rpcMagic.step 0 2 0 (.Received 1 { magic := 0, payload := .Verack }) =
      .error .magicMismatch := rfl

/-- Claim C6: an `Error(remote, err)` event removes `remote` from `connected`,
inserts it into `disconnected`, keeps its peer record, and emits nothing; a
second identical `Error` leaves `connected`, `disconnected` and the peer table
unchanged. -/
theorem error_event_disconnects_idempotently (s : Rpc) (now : Nat) (lt : Int)
    (rng : Nat) (a : PeerId) :
    ∃ s1 s2,
      s.step now lt rng (.Error a) = .ok (s1, []) ∧
      s1.connected = setRemove a s.connected ∧ a ∉ s1.connected ∧
      s1.disconnected = setInsert a s.disconnected ∧ a ∈ s1.disconnected ∧
      s1.peers = s.peers ∧
      s1.step now lt rng (.Error a) = .ok (s2, []) ∧
      s2.connected = s1.connected ∧ s2.disconnected = s1.disconnected ∧
      s2.peers = s1.peers := by
  refine ⟨_, _, rfl, ?_, ?_, ?_, ?_, ?_, rfl, ?_, ?_, ?_⟩
  · rw [syncCheck_connected]
  · rw [syncCheck_connected]
    exact not_mem_setRemove_self a _
  · rw [syncCheck_disconnected]
  · rw [syncCheck_disconnected]
    exact mem_setInsert_self a _
  · rw [syncCheck_peers]
  · simp [syncCheck_connected, setRemove_idem]
  · simp [syncCheck_disconnected, setInsert_idem]
  · simp [syncCheck_peers]

/-- `receive` on a `version` frame for an inbound peer awaiting its version:
the peer record is updated and the engine replies with its own `version`
followed by `verack`. -/
theorem receive_inbound_version (s : Rpc) (now : Nat) (lt : Int) (addr : PeerId)
    (peer : Peer) (v : VersionMessage) (msg : RawNetworkMessage)
    (hp : s.peers.lookup addr = some peer)
    (hstate : peer.state = .Handshake .AwaitingVersion)
    (hlink : peer.link = .Inbound)
    (hmagic : msg.magic = s.config.network_magic)
    (hpayload : msg.payload = .Version v) :
    s.receive now lt addr msg =
      .ok ({ s with
             peers :=
               mapInsert addr
                 ({ peer with
                    last_active := some now
                    height := i32AsU64 v.start_height
                    time_offset := v.timestamp - lt
                    state := .Handshake .AwaitingVerack })
                 s.peers },
            [(addr, s.version lt addr peer.local_address 0), (addr, .Verack)]) := by
  simp only [Rpc.receive, hmagic, if_pos, hp, hstate, hpayload, Peer.receive_version,
    gt_iff_lt, Nat.not_lt_zero, if_false, hlink]
  rfl

/-- Claim C8: a peer in `Handshake(AwaitingVersion)` with an inbound link that
receives a matching-magic `version` makes `step` return exactly the two items
`(peer, version)` then `(peer, verack)`, both addressed to that peer. -/
theorem inbound_version_two_frames (s : Rpc) (now : Nat) (lt : Int) (rng : Nat)
    (addr : PeerId) (peer : Peer) (v : VersionMessage) (msg : RawNetworkMessage)
    (hp : s.peers.lookup addr = some peer)
    (hstate : peer.state = .Handshake .AwaitingVersion)
    (hlink : peer.link = .Inbound)
    (hmagic : msg.magic = s.config.network_magic)
    (hpayload : msg.payload = .Version v) :
    ∃ (s' : Rpc) (vm : VersionMessage),
      s.step now lt rng (.Received addr msg) =
        .ok (s', [(addr, { magic := s.config.network_magic, payload := .Version vm }),
                  (addr, { magic := s.config.network_magic, payload := .Verack })]) := by
  have h := receive_inbound_version s now lt addr peer v msg hp hstate hlink hmagic hpayload
  obtain ⟨s1, hs1, hcfg⟩ :
      ∃ s1, s.receive now lt addr msg =
          .ok (s1, [(addr, s.version lt addr peer.local_address 0), (addr, .Verack)]) ∧
        s1.config = s.config := ⟨_, h, rfl⟩
  refine ⟨s1.syncCheck rng,
    { version := s.config.protocol_version
      services := s.config.services
      timestamp := lt
      receiver_addr := addr
      receiver_services := NETWORK ||| COMPACT_FILTERS
      sender_addr := peer.local_address
      sender_services := NONE
      nonce := 0
      user_agent := USER_AGENT
      start_height := u64AsI32 0
      relay := s.config.relay }, ?_⟩
  simp only [Rpc.step, hs1, Rpc.wrapOut, List.map_cons, List.map_nil, syncCheck_config, hcfg]
  rfl

/-- Witness engine for the inbound-handshake claims: peer 1 known, inbound,
awaiting its version. -/
def rpcInbound : Rpc :=
  { Rpc.new 5 [] cfg7 with
    peers := [(1, Peer.new 1 0 (.Handshake .AwaitingVersion) .Inbound)] }

/-- Witness for claim C8 at a concrete engine and frame. -/
theorem inbound_version_two_frames_witness :
    ∃ (s' : Rpc) (vm : VersionMessage),
      rpcInbound.step 0 2 0 (.Received 1 (verFrame 5 100)) =
        .ok (s', [(1, { magic := rpcInbound.config.network_magic, payload := .Version vm }),
                  (1, { magic := rpcInbound.config.network_magic, payload := .Verack })]) :=
  inbound_version_two_frames rpcInbound 0 2 0 1
    (Peer.new 1 0 (.Handshake .AwaitingVersion) .Inbound) _ (verFrame 5 100)
    rfl rfl rfl rfl rfl

/-- The outbound messages produced by stepping an engine with tree height 5
and user agent "ua-x" on an outbound `Connected` event. -/
def c7Emitted : List (PeerId × RawNetworkMessage) :=
  match (Rpc.new 5 [] cfg7).step 0 2 0 (.Connected 1 0 .Outbound) with
  | .ok (_, out) => out
  | .error _ => []

/-- A sentinel version message (returned only if `c7Emitted` does not start
with a version frame). -/
def fallbackVm : VersionMessage :=
  { version := 0
    services := 0
    timestamp := 0
    receiver_addr := 0
    receiver_services := 0
    sender_addr := 0
    sender_services := 0
    nonce := 1
    user_agent := ""
    start_height := 99
    relay := false }

/-- The version message emitted on the outbound `Connected` event. -/
def c7Vm : VersionMessage :=
  match c7Emitted with
  | (_, m) :: _ =>
    match m.payload with
    | .Version vm => vm
    | _ => fallbackVm
  | [] => fallbackVm

/-- Counterexample to claim C7: the engine's tree height is 5 and its
configured user agent is "ua-x", yet the emitted version message carries
`start_height = 0` and the constant user agent `/nakamoto:0.0.0/`. -/
theorem version_fields_counterexample :
    (Rpc.new 5 [] cfg7).tree_height = 5 ∧
    c7Vm.start_height = 0 ∧
    c7Vm.start_height ≠ ((Rpc.new 5 [] cfg7).tree_height : Int) ∧
    c7Vm.user_agent = USER_AGENT ∧
    c7Vm.user_agent ≠ (Rpc.new 5 [] cfg7).config.user_agent := by
  decide

/-- Claim C7 (amended): every version message the engine emits — on an
outbound `Connected` event and in the inbound handshake reply — has
`version = config.protocol_version`, `services = config.services`,
`timestamp` the current unix time, receiver flags `NETWORK | COMPACT_FILTERS`,
sender flags `NONE`, `nonce = 0`, the constant user agent `/nakamoto:0.0.0/`,
`start_height = 0` (the literal both call sites pass), and
`relay = config.relay`. -/
theorem version_message_fields :
    (∀ (s : Rpc) (now : Nat) (lt : Int) (rng : Nat) (addr laddr : PeerId),
      ∃ (s' : Rpc) (vm : VersionMessage),
        s.step now lt rng (.Connected addr laddr .Outbound) =
          .ok (s', [(addr, { magic := s.config.network_magic, payload := .Version vm })]) ∧
        vm.version = s.config.protocol_version ∧
        vm.services = s.config.services ∧
        vm.timestamp = lt ∧
        vm.receiver_addr = addr ∧
        vm.receiver_services = NETWORK ||| COMPACT_FILTERS ∧
        vm.sender_addr = laddr ∧
        vm.sender_services = NONE ∧
        vm.nonce = 0 ∧
        vm.user_agent = USER_AGENT ∧
        vm.start_height = 0 ∧
        vm.relay = s.config.relay) ∧
    (∀ (s : Rpc) (now : Nat) (lt : Int) (rng : Nat) (addr : PeerId) (peer : Peer)
        (v : VersionMessage) (msg : RawNetworkMessage),
      s.peers.lookup addr = some peer →
      peer.state = .Handshake .AwaitingVersion →
      peer.link = .Inbound →
      msg.magic = s.config.network_magic →
      msg.payload = .Version v →
      ∃ (s' : Rpc) (vm : VersionMessage) (rest : List (PeerId × RawNetworkMessage)),
        s.step now lt rng (.Received addr msg) =
          .ok (s', (addr, { magic := s.config.network_magic, payload := .Version vm }) :: rest) ∧
        vm.version = s.config.protocol_version ∧
        vm.services = s.config.services ∧
        vm.timestamp = lt ∧
        vm.receiver_addr = addr ∧
        vm.receiver_services = NETWORK ||| COMPACT_FILTERS ∧
        vm.sender_addr = peer.local_address ∧
        vm.sender_services = NONE ∧
        vm.nonce = 0 ∧
        vm.user_agent = USER_AGENT ∧
        vm.start_height = 0 ∧
        vm.relay = s.config.relay) := by
  constructor
  · intro s now lt rng addr laddr
    refine ⟨((s.connect addr laddr .Outbound).1).syncCheck rng,
      { version := s.config.protocol_version
        services := s.config.services
        timestamp := lt
        receiver_addr := addr
        receiver_services := NETWORK ||| COMPACT_FILTERS
        sender_addr := laddr
        sender_services := NONE
        nonce := 0
        user_agent := USER_AGENT
        start_height := u64AsI32 0
        relay := s.config.relay }, ?_,
      rfl, rfl, rfl, rfl, rfl, rfl, rfl, rfl, rfl, rfl, rfl⟩
    simp only [Rpc.step, Rpc.wrapOut, List.map_cons, List.map_nil, syncCheck_config]
    rfl
  · intro s now lt rng addr peer v msg hp hstate hlink hmagic hpayload
    have h := receive_inbound_version s now lt addr peer v msg hp hstate hlink hmagic hpayload
    obtain ⟨s1, hs1, hcfg⟩ :
        ∃ s1, s.receive now lt addr msg =
            .ok (s1, [(addr, s.version lt addr peer.local_address 0), (addr, .Verack)]) ∧
          s1.config = s.config := ⟨_, h, rfl⟩
    refine ⟨s1.syncCheck rng,
      { version := s.config.protocol_version
        services := s.config.services
        timestamp := lt
        receiver_addr := addr
        receiver_services := NETWORK ||| COMPACT_FILTERS
        sender_addr := peer.local_address
        sender_services := NONE
        nonce := 0
        user_agent := USER_AGENT
        start_height := u64AsI32 0
        relay := s.config.relay },
      [(addr, { magic := s.config.network_magic, payload := .Verack })], ?_,
      rfl, rfl, rfl, rfl, rfl, rfl, rfl, rfl, rfl, rfl, rfl⟩
    simp only [Rpc.step, hs1, Rpc.wrapOut, List.map_cons, List.map_nil, syncCheck_config, hcfg]
    rfl

/-- Witness for claim C7 (both emission sites, at a concrete engine). -/
theorem version_message_fields_witness :
    (∃ (s' : Rpc) (vm : VersionMessage),
      (Rpc.new 5 [] cfg7).step 0 2 0 (.Connected 1 0 .Outbound) =
        .ok (s', [(1, { magic := (Rpc.new 5 [] cfg7).config.network_magic,
                        payload := .Version vm })]) ∧
      vm.version = (Rpc.new 5 [] cfg7).config.protocol_version ∧
      vm.services = (Rpc.new 5 [] cfg7).config.services ∧
      vm.timestamp = 2 ∧
      vm.receiver_addr = 1 ∧
      vm.receiver_services = NETWORK ||| COMPACT_FILTERS ∧
      vm.sender_addr = 0 ∧
      vm.sender_services = NONE ∧
      vm.nonce = 0 ∧
      vm.user_agent = USER_AGENT ∧
      vm.start_height = 0 ∧
      vm.relay = (Rpc.new 5 [] cfg7).config.relay) ∧
    (∃ (s' : Rpc) (vm : VersionMessage) (rest : List (PeerId × RawNetworkMessage)),
      rpcInbound.step 0 2 0 (.Received 1 (verFrame 5 100)) =
        .ok (s', (1, { magic := rpcInbound.config.network_magic,
                       payload := .Version vm }) :: rest) ∧
      vm.version = rpcInbound.config.protocol_version ∧
      vm.services = rpcInbound.config.services ∧
      vm.timestamp = 2 ∧
      vm.receiver_addr = 1 ∧
      vm.receiver_services = NETWORK ||| COMPACT_FILTERS ∧
      vm.sender_addr = 0 ∧
      vm.sender_services = NONE ∧
      vm.nonce = 0 ∧
      vm.user_agent = USER_AGENT ∧
      vm.start_height = 0 ∧
      vm.relay = rpcInbound.config.relay) :=
  ⟨version_message_fields.1 (Rpc.new 5 [] cfg7) 0 2 0 1 0,
   version_message_fields.2 rpcInbound 0 2 0 1
     (Peer.new 1 0 (.Handshake .AwaitingVersion) .Inbound) _ (verFrame 5 100)
     rfl rfl rfl rfl rfl⟩

/-- Inputs driving peer 1 through a complete outbound handshake (its version
carries timestamp 5 while the local clock reads 2, so its clock sample is 3)
followed by an `Error` event for it. -/
def c9Inputs : List Input :=
  [ ⟨0, 2, 0, .Connected 1 0 .Outbound⟩,
    ⟨0, 2, 0, .Received 1 (verFrame 5 100)⟩,
    ⟨0, 2, 0, .Received 1 verackFrame⟩,
    ⟨0, 2, 0, .Error 1⟩ ]

/-- The engine after running `c9Inputs`. -/
def c9Final : Rpc :=
  (getOk ((Rpc.new 5 [] cfg7).run c9Inputs)).getD (Rpc.new 5 [] cfg7)

/-- Counterexample to claim C9: peer 1 completed the handshake and contributed
its time-offset sample (3), then an `Error` event moved it to `disconnected` —
yet its sample is still in the adjusted clock (the `Error` arm of `step` never
touches the clock). -/
theorem error_does_not_retract_sample :
    (getOk ((Rpc.new 5 [] cfg7).run c9Inputs)).isSome = true ∧
    c9Final.clock.lookup 1 = some 3 ∧
    (1 : PeerId) ∈ c9Final.disconnected ∧
    (1 : PeerId) ∉ c9Final.connected := by
  decide

/-- Claim C9 (amended): an `Error` event moves the peer to `disconnected` but
leaves the adjusted clock's samples untouched — the sample contributed at
handshake completion is retained, not retracted. -/
theorem error_event_keeps_clock (s : Rpc) (now : Nat) (lt : Int) (rng : Nat)
    (a : PeerId) (off : TimeOffset) (h : s.clock.lookup a = some off) :
    ∃ s', s.step now lt rng (.Error a) = .ok (s', []) ∧
      s'.clock = s.clock ∧ s'.clock.lookup a = some off ∧ a ∈ s'.disconnected := by
  refine ⟨_, rfl, ?_, ?_, ?_⟩
  · rw [syncCheck_clock]
  · rw [syncCheck_clock]
    exact h
  · rw [syncCheck_disconnected]
    exact mem_setInsert_self a _

/-- Witness for claim C9 (amended) at a concrete engine holding a sample for
peer 1. -/
theorem error_event_keeps_clock_witness :
    ∃ s', ({ Rpc.new 0 [] cfg7 with clock := [(1, 3)] } : Rpc).step 0 0 0 (.Error 1) =
        .ok (s', []) ∧
      s'.clock = ({ Rpc.new 0 [] cfg7 with clock := [(1, 3)] } : Rpc).clock ∧
      s'.clock.lookup 1 = some 3 ∧ (1 : PeerId) ∈ s'.disconnected :=
  error_event_keeps_clock { Rpc.new 0 [] cfg7 with clock := [(1, 3)] } 0 0 0 1 3 rfl

/-- Claim C10: a `Connected` event for a peer already in the table replaces
its record with a fresh one (state `Handshake(AwaitingVersion)`, height 0,
time offset 0, `last_active` unset, the new link), removes it from
`disconnected`, and leaves `connected` unchanged — a handshake-complete peer
that reconnects stays in `connected` even though its record is back in
handshake state. -/
theorem reconnect_resets_record (s : Rpc) (now : Nat) (lt : Int) (rng : Nat)
    (addr laddr : PeerId) (link : Link) (old : Peer)
    (_hp : s.peers.lookup addr = some old) :
    ∃ s' out,
      s.step now lt rng (.Connected addr laddr link) = .ok (s', out) ∧
      s'.peers.lookup addr =
        some (Peer.new addr laddr (.Handshake .AwaitingVersion) link) ∧
      addr ∉ s'.disconnected ∧
      s'.connected = s.connected ∧
      (addr ∈ s.connected → addr ∈ s'.connected) := by
  refine ⟨_, _, rfl, ?_, ?_, ?_, ?_⟩
  · rw [syncCheck_peers]
    exact lookup_mapInsert_self addr _ _
  · rw [syncCheck_disconnected]
    exact not_mem_setRemove_self addr _
  · rw [syncCheck_connected]
    exact rfl
  · intro h
    rw [syncCheck_connected]
    exact h

/-- Witness for claim C10: peer 1, previously known with a `Done` record and
sitting in both `connected` and `disconnected`, reconnects inbound. -/
theorem reconnect_resets_record_witness :
    ∃ s' out,
      ({ rpcInbound with connected := [1], disconnected := [1] } : Rpc).step 0 0 0
          (.Connected 1 0 .Inbound) = .ok (s', out) ∧
      s'.peers.lookup 1 =
        some (Peer.new 1 0 (.Handshake .AwaitingVersion) .Inbound) ∧
      (1 : PeerId) ∉ s'.disconnected ∧
      s'.connected = ({ rpcInbound with connected := [1], disconnected := [1] } : Rpc).connected ∧
      ((1 : PeerId) ∈ ({ rpcInbound with connected := [1], disconnected := [1] } : Rpc).connected →
        (1 : PeerId) ∈ s'.connected) :=
  reconnect_resets_record { rpcInbound with connected := [1], disconnected := [1] } 0 0 0
    1 0 .Inbound (Peer.new 1 0 (.Handshake .AwaitingVersion) .Inbound) rfl

/-- How one successful `receive` changes the peer table and the two sets:
the addressed peer's record is rewritten, `disconnected` is untouched, and
`connected` either stays put (with the peer only becoming post-handshake if it
already was) or gains the addressed peer (the verack arm). -/
theorem receive_shape (s : Rpc) (now : Nat) (lt : Int) (addr : PeerId)
    (msg : RawNetworkMessage) (s1 : Rpc) (out : List (PeerId × NetworkMessage))
    (h : s.receive now lt addr msg = .ok (s1, out)) :
    ∃ peer newPeer,
      s.peers.lookup addr = some peer ∧
      s1.peers = mapInsert addr newPeer s.peers ∧
      s1.disconnected = s.disconnected ∧
      s1.config = s.config ∧
      ((s1.connected = s.connected ∧
          (isPostHandshake newPeer.state = true → isPostHandshake peer.state = true)) ∨
        s1.connected = setInsert addr s.connected) := by
  unfold Rpc.receive at h
  split at h
  case isFalse => exact absurd h (by simp)
  case isTrue =>
    split at h
    case h_1 => exact absurd h (by simp)
    case h_2 peer hlk =>
      split at h
      case h_1 hst =>
        -- Handshake(AwaitingVersion)
        split at h
        case h_1 v hpay =>
          split at h
          case h_1 => exact absurd h (by simp)
          case h_2 peer2 hrecv =>
            simp only [Peer.receive_version, gt_iff_lt, Nat.not_lt_zero, if_false,
              Except.ok.injEq] at hrecv
            split at h
            all_goals
              simp only [Except.ok.injEq, Prod.mk.injEq] at h
              obtain ⟨h1, _⟩ := h
              subst h1
              exact ⟨peer, peer2, hlk, rfl, rfl, rfl,
                Or.inl ⟨rfl, by rw [← hrecv]; simp [isPostHandshake]⟩⟩
        all_goals
          simp only [Except.ok.injEq, Prod.mk.injEq] at h
          obtain ⟨h1, _⟩ := h
          subst h1
          exact ⟨peer, _, hlk, rfl, rfl, rfl, Or.inl ⟨rfl, fun hx => hx⟩⟩
      case h_2 hst =>
        -- Handshake(AwaitingVerack)
        split at h
        case h_1 hpay =>
          split at h
          all_goals
            simp only [Except.ok.injEq, Prod.mk.injEq] at h
            obtain ⟨h1, _⟩ := h
            subst h1
            exact ⟨peer, _, hlk, rfl, rfl, rfl, Or.inr rfl⟩
        case h_2 hpay =>
          simp only [Except.ok.injEq, Prod.mk.injEq] at h
          obtain ⟨h1, _⟩ := h
          subst h1
          exact ⟨peer, _, hlk, rfl, rfl, rfl, Or.inl ⟨rfl, fun hx => hx⟩⟩
      case h_3 hst =>
        -- Handshake(Done): the record moves to Synchronize, which is still
        -- post-handshake, and the old state was post-handshake too.
        simp only [Except.ok.injEq, Prod.mk.injEq] at h
        obtain ⟨h1, _⟩ := h
        subst h1
        refine ⟨peer, _, hlk, rfl, rfl, rfl, Or.inl ⟨rfl, fun _ => ?_⟩⟩
        rw [hst]
        rfl
      case h_4 ss hst =>
        -- Synchronize(_)
        simp only [Except.ok.injEq, Prod.mk.injEq] at h
        obtain ⟨h1, _⟩ := h
        subst h1
        exact ⟨peer, _, hlk, rfl, rfl, rfl, Or.inl ⟨rfl, fun hx => hx⟩⟩

/-- How one successful `step` changes the peer table and the two sets,
by event kind. -/
theorem step_shape (s : Rpc) (now : Nat) (lt : Int) (rng : Nat) (ev : Event)
    (s' : Rpc) (out : List (PeerId × RawNetworkMessage))
    (h : s.step now lt rng ev = .ok (s', out)) :
    (∃ addr laddr link,
        ev = .Connected addr laddr link ∧
        s'.peers =
          mapInsert addr (Peer.new addr laddr (.Handshake .AwaitingVersion) link) s.peers ∧
        s'.connected = s.connected ∧
        s'.disconnected = setRemove addr s.disconnected) ∨
    (∃ addr msg peer newPeer,
        ev = .Received addr msg ∧
        s.peers.lookup addr = some peer ∧
        s'.peers = mapInsert addr newPeer s.peers ∧
        s'.disconnected = s.disconnected ∧
        ((s'.connected = s.connected ∧
            (isPostHandshake newPeer.state = true → isPostHandshake peer.state = true)) ∨
          s'.connected = setInsert addr s.connected)) ∨
    (s'.peers = s.peers ∧ s'.connected = s.connected ∧ s'.disconnected = s.disconnected) ∨
    (∃ addr,
        ev = .Error addr ∧
        s'.peers = s.peers ∧
        s'.connected = setRemove addr s.connected ∧
        s'.disconnected = setInsert addr s.disconnected) := by
  cases ev with
  | Connected addr laddr link =>
    simp only [Rpc.step, Except.ok.injEq, Prod.mk.injEq] at h
    obtain ⟨h1, _⟩ := h
    subst h1
    exact Or.inl ⟨addr, laddr, link, rfl,
      by rw [syncCheck_peers]; exact rfl,
      by rw [syncCheck_connected]; exact rfl,
      by rw [syncCheck_disconnected]; exact rfl⟩
  | Received addr msg =>
    simp only [Rpc.step] at h
    split at h
    case h_1 => exact absurd h (by simp)
    case h_2 s1 outb heq =>
      simp only [Except.ok.injEq, Prod.mk.injEq] at h
      obtain ⟨h1, _⟩ := h
      subst h1
      obtain ⟨peer, newPeer, hlk, hpeers, hdisc, _, hconn⟩ :=
        receive_shape s now lt addr msg s1 outb heq
      refine Or.inr (Or.inl ⟨addr, msg, peer, newPeer, rfl, hlk,
        by rw [syncCheck_peers]; exact hpeers,
        by rw [syncCheck_disconnected]; exact hdisc, ?_⟩)
      rcases hconn with ⟨hc, himp⟩ | hc
      · exact Or.inl ⟨by rw [syncCheck_connected]; exact hc, himp⟩
      · exact Or.inr (by rw [syncCheck_connected]; exact hc)
  | Sent addr n =>
    simp only [Rpc.step, Except.ok.injEq, Prod.mk.injEq] at h
    obtain ⟨h1, _⟩ := h
    subst h1
    exact Or.inr (Or.inr (Or.inl
      ⟨by rw [syncCheck_peers], by rw [syncCheck_connected], by rw [syncCheck_disconnected]⟩))
  | Error addr =>
    simp only [Rpc.step, Except.ok.injEq, Prod.mk.injEq] at h
    obtain ⟨h1, _⟩ := h
    subst h1
    exact Or.inr (Or.inr (Or.inr ⟨addr, rfl,
      by rw [syncCheck_peers],
      by rw [syncCheck_connected],
      by rw [syncCheck_disconnected]⟩))

theorem contains_iff_mem {a : PeerId} {l : List PeerId} :
    l.contains a = true ↔ a ∈ l := by
  simp

/-- Every peer-table entry whose state is post-handshake sits in
`connected ∪ disconnected`. -/
def InvConn (s : Rpc) : Prop :=
  ∀ kv ∈ s.peers, isPostHandshake kv.2.state = true →
    kv.1 ∈ s.connected ∨ kv.1 ∈ s.disconnected

theorem step_preserves_invConn (s : Rpc) (now : Nat) (lt : Int) (rng : Nat)
    (ev : Event) (s' : Rpc) (out : List (PeerId × RawNetworkMessage))
    (hInv : InvConn s) (h : s.step now lt rng ev = .ok (s', out)) : InvConn s' := by
  rcases step_shape s now lt rng ev s' out h with
    ⟨addr, laddr, link, _, hpeers, hconn, hdisc⟩ |
    ⟨addr, msg, peer, newPeer, _, hlk, hpeers, hdisc, hconn⟩ |
    ⟨hpeers, hconn, hdisc⟩ |
    ⟨addr, _, hpeers, hconn, hdisc⟩
  · -- Connected
    intro kv hkv hpost
    rw [hpeers] at hkv
    rw [hconn, hdisc]
    rcases List.mem_cons.mp hkv with rfl | hkv'
    · simp [Peer.new, isPostHandshake] at hpost
    · obtain ⟨hmem, hne⟩ := List.mem_filter.mp hkv'
      have hne' : kv.1 ≠ addr := by simpa using hne
      rcases hInv kv hmem hpost with hc | hd
      · exact Or.inl hc
      · exact Or.inr (mem_setRemove.mpr ⟨hne', hd⟩)
  · -- Received
    intro kv hkv hpost
    rw [hpeers] at hkv
    rw [hdisc]
    rcases List.mem_cons.mp hkv with rfl | hkv'
    · rcases hconn with ⟨hceq, himp⟩ | hset
      · rcases hInv (addr, peer) (lookup_mem hlk) (himp hpost) with hc | hd
        · exact Or.inl (hceq ▸ hc)
        · exact Or.inr hd
      · exact Or.inl (hset ▸ mem_setInsert_self addr s.connected)
    · obtain ⟨hmem, _⟩ := List.mem_filter.mp hkv'
      rcases hInv kv hmem hpost with hc | hd
      · rcases hconn with ⟨hceq, _⟩ | hset
        · exact Or.inl (hceq ▸ hc)
        · exact Or.inl (hset ▸ mem_setInsert.mpr (Or.inr hc))
      · exact Or.inr hd
  · -- Sent
    intro kv hkv hpost
    rw [hpeers] at hkv
    rw [hconn, hdisc]
    exact hInv kv hkv hpost
  · -- Error
    intro kv hkv hpost
    rw [hpeers] at hkv
    rw [hconn, hdisc]
    rcases hInv kv hkv hpost with hc | hd
    · by_cases he : kv.1 = addr
      · exact Or.inr (mem_setInsert.mpr (Or.inl he))
      · exact Or.inl (mem_setRemove.mpr ⟨he, hc⟩)
    · exact Or.inr (mem_setInsert.mpr (Or.inr hd))

theorem run_preserves_invConn (inputs : List Input) (s0 s : Rpc)
    (hInv : InvConn s0) (h : s0.run inputs = .ok s) : InvConn s := by
  induction inputs generalizing s0 with
  | nil =>
    unfold Rpc.run at h
    cases h
    exact hInv
  | cons i rest ih =>
    unfold Rpc.run at h
    split at h
    case h_1 => exact absurd h (by simp)
    case h_2 s1 outb heq =>
      exact ih s1 (step_preserves_invConn s0 i.now i.localTime i.rng i.event s1 outb hInv heq) h

/-- Inputs producing a state where the claimed biconditional fails in both
directions: peer 1 handshakes fully and then reconnects (so it is in
`connected` with a fresh `AwaitingVersion` record); peer 2 handshakes fully
and then errors out (so its record is `Done` but it is not in `connected`). -/
def c4Inputs : List Input :=
  [ ⟨0, 2, 0, .Connected 1 0 .Outbound⟩,
    ⟨0, 2, 0, .Received 1 (verFrame 5 100)⟩,
    ⟨0, 2, 0, .Received 1 verackFrame⟩,
    ⟨0, 2, 0, .Connected 1 0 .Outbound⟩,
    ⟨0, 2, 0, .Connected 2 0 .Outbound⟩,
    ⟨0, 2, 0, .Received 2 (verFrame 5 100)⟩,
    ⟨0, 2, 0, .Received 2 verackFrame⟩,
    ⟨0, 2, 0, .Error 2⟩ ]

/-- The engine after running `c4Inputs`. -/
def c4Final : Rpc :=
  (getOk ((Rpc.new 5 [] cfg7).run c4Inputs)).getD (Rpc.new 5 [] cfg7)

/-- Counterexample to claim C4: at the reachable state `c4Final`, peer 1 is in
`connected` although its record is back in `Handshake(AwaitingVersion)`, and
peer 2's record is `Handshake(Done)` although it is not in `connected` — the
claimed biconditional fails in both directions. -/
theorem connected_iff_post_handshake_counterexample :
    (getOk ((Rpc.new 5 [] cfg7).run c4Inputs)).isSome = true ∧
    (c4Final.peers.lookup 1).map Peer.state = some (.Handshake .AwaitingVersion) ∧
    (1 : PeerId) ∈ c4Final.connected ∧
    (c4Final.peers.lookup 2).map Peer.state = some (.Handshake .Done) ∧
    (2 : PeerId) ∉ c4Final.connected := by
  decide

/-- Claim C4 (amended): at every reachable state, every peer-table entry whose
state is post-handshake (`Handshake(Done)` or any `Synchronize(_)`) is in
`connected ∪ disconnected`.  The original biconditional with `connected` alone
fails in both directions (see the counterexample). -/
theorem post_handshake_tracked (tree : Height) (clock : List (PeerId × TimeOffset))
    (cfg : Config) (inputs : List Input) (s : Rpc)
    (h : (Rpc.new tree clock cfg).run inputs = .ok s) : InvConn s := by
  refine run_preserves_invConn inputs (Rpc.new tree clock cfg) s ?_ h
  intro kv hkv
  simp [Rpc.new] at hkv

/-- Inputs driving peer 1 through a complete outbound handshake (and nothing
else). -/
def handshakeInputs : List Input :=
  [ ⟨0, 2, 0, .Connected 1 0 .Outbound⟩,
    ⟨0, 2, 0, .Received 1 (verFrame 5 100)⟩,
    ⟨0, 2, 0, .Received 1 verackFrame⟩ ]

/-- The engine after running `handshakeInputs`. -/
def afterHandshake : Rpc :=
  (getOk ((Rpc.new 5 [] cfg7).run handshakeInputs)).getD (Rpc.new 5 [] cfg7)

/-- Witness for claim C4 (amended): after the full handshake of peer 1, whose
record is `Done`, that peer is in `connected ∪ disconnected`. -/
theorem post_handshake_tracked_witness :
    (1 : PeerId) ∈ afterHandshake.connected ∨ (1 : PeerId) ∈ afterHandshake.disconnected :=
  post_handshake_tracked 5 [] cfg7 handshakeInputs afterHandshake rfl
    (1, { address := 1, local_address := 0, height := 100, time_offset := 3,
          link := .Outbound, state := .Handshake .Done, last_active := some 0 })
    (by decide) (by decide)

/-- A trace is safe when every `Received` event it delivers names a peer that
is not in `disconnected` at that moment (the reactor guarantees this: a
peer's reader thread emits no further events after its `Error`). -/
def safeTrace (s : Rpc) : List Input → Bool
  | [] => true
  | i :: rest =>
    (match i.event with
     | .Received p _ => !(s.disconnected.contains p)
     | _ => true) &&
    (match s.step i.now i.localTime i.rng i.event with
     | .ok (s', _) => safeTrace s' rest
     | .error _ => true)

/-- The connected and disconnected sets are disjoint. -/
def DisjointCD (s : Rpc) : Prop := ∀ p, p ∈ s.connected → p ∉ s.disconnected

theorem step_preserves_disjoint (s : Rpc) (now : Nat) (lt : Int) (rng : Nat)
    (ev : Event) (s' : Rpc) (out : List (PeerId × RawNetworkMessage))
    (hd : DisjointCD s)
    (hrecv : ∀ p m, ev = .Received p m → p ∉ s.disconnected)
    (h : s.step now lt rng ev = .ok (s', out)) : DisjointCD s' := by
  rcases step_shape s now lt rng ev s' out h with
    ⟨addr, laddr, link, _, _, hconn, hdisc⟩ |
    ⟨addr, msg, peer, newPeer, hev, _, _, hdisc, hconn⟩ |
    ⟨_, hconn, hdisc⟩ |
    ⟨addr, _, _, hconn, hdisc⟩
  · -- Connected
    intro p hp hpd
    rw [hconn] at hp
    rw [hdisc] at hpd
    exact hd p hp (mem_setRemove.mp hpd).2
  · -- Received
    intro p hp hpd
    rw [hdisc] at hpd
    rcases hconn with ⟨hceq, _⟩ | hset
    · exact hd p (hceq ▸ hp) hpd
    · rcases mem_setInsert.mp (hset ▸ hp) with rfl | hp'
      · exact hrecv p msg hev hpd
      · exact hd p hp' hpd
  · -- Sent
    intro p hp hpd
    rw [hconn] at hp
    rw [hdisc] at hpd
    exact hd p hp hpd
  · -- Error
    intro p hp hpd
    rw [hconn] at hp
    rw [hdisc] at hpd
    obtain ⟨hne, hp'⟩ := mem_setRemove.mp hp
    rcases mem_setInsert.mp hpd with rfl | hpd'
    · exact hne rfl
    · exact hd p hp' hpd'

theorem run_preserves_disjoint (inputs : List Input) (s0 s : Rpc)
    (hd : DisjointCD s0) (hsafe : safeTrace s0 inputs = true)
    (h : s0.run inputs = .ok s) : DisjointCD s := by
  induction inputs generalizing s0 with
  | nil =>
    unfold Rpc.run at h
    cases h
    exact hd
  | cons i rest ih =>
    unfold Rpc.run at h
    split at h
    case h_1 => exact absurd h (by simp)
    case h_2 s1 outb heq =>
      unfold safeTrace at hsafe
      rw [heq, Bool.and_eq_true] at hsafe
      obtain ⟨hsafe1, hsafe2⟩ := hsafe
      refine ih s1 (step_preserves_disjoint s0 i.now i.localTime i.rng i.event s1 outb hd ?_ heq)
        hsafe2 h
      intro p m hev
      rw [hev] at hsafe1
      intro hmem
      rw [Bool.not_eq_true'] at hsafe1
      rw [← contains_iff_mem] at hmem
      rw [hsafe1] at hmem
      exact Bool.false_ne_true hmem

/-- Inputs violating the disjointness claim: peer 1 errors out mid-handshake
(it is moved to `disconnected` while its record stays `AwaitingVerack`), and a
later `verack` from it still completes the handshake, inserting it into
`connected` without removing it from `disconnected`. -/
def c5Inputs : List Input :=
  [ ⟨0, 2, 0, .Connected 1 0 .Outbound⟩,
    ⟨0, 2, 0, .Received 1 (verFrame 5 100)⟩,
    ⟨0, 2, 0, .Error 1⟩,
    ⟨0, 2, 0, .Received 1 verackFrame⟩ ]

/-- The engine after running `c5Inputs`. -/
def c5Final : Rpc :=
  (getOk ((Rpc.new 5 [] cfg7).run c5Inputs)).getD (Rpc.new 5 [] cfg7)

/-- Counterexample to claim C5: after the reachable trace `c5Inputs`, peer 1
is in both `connected` and `disconnected`, so the two sets intersect. -/
theorem disjointness_counterexample :
    (getOk ((Rpc.new 5 [] cfg7).run c5Inputs)).isSome = true ∧
    (1 : PeerId) ∈ c5Final.connected ∧
    (1 : PeerId) ∈ c5Final.disconnected := by
  decide

/-- Claim C5 (amended): after any finite sequence of events in which no
`Received` event names a peer currently in `disconnected` (which is what the
reactor delivers, since an errored peer's reader is gone), the connected and
disconnected sets are disjoint.  Without that restriction the claim fails
(see the counterexample). -/
theorem connected_disconnected_disjoint (tree : Height)
    (clock : List (PeerId × TimeOffset)) (cfg : Config)
    (inputs : List Input) (s : Rpc)
    (hsafe : safeTrace (Rpc.new tree clock cfg) inputs = true)
    (h : (Rpc.new tree clock cfg).run inputs = .ok s) :
    ∀ p, p ∈ s.connected → p ∉ s.disconnected := by
  refine run_preserves_disjoint inputs (Rpc.new tree clock cfg) s ?_ hsafe h
  intro p hp
  simp [Rpc.new] at hp

/-- Witness for claim C5 (amended): the full-handshake trace is safe, peer 1
ends up connected, and disjointness puts it outside `disconnected`. -/
theorem connected_disconnected_disjoint_witness :
    (1 : PeerId) ∈ afterHandshake.connected ∧ (1 : PeerId) ∉ afterHandshake.disconnected :=
  ⟨by decide,
   connected_disconnected_disjoint 5 [] cfg7 handshakeInputs afterHandshake (by decide) rfl
     1 (by decide)⟩

/-- The two-engine handshake scenario: engine A handles
`Connected(B, A, Outbound)`, engine B handles `Connected(A, B, Inbound)`, and
at most four queued messages are delivered. -/
def simHandshake (a b : PeerId) (tree : Height) (cfg : Config) (now : Nat)
    (lt : Int) (rng : Nat) : Except Abort Sim :=
  match Sim.init a b tree cfg now lt rng with
  | .error e => .error e
  | .ok s0 => Sim.runFour now lt rng s0

/-- The simulator state the handshake scenario quiesces in: both engines hold
the other's record in `Handshake(Done)`, each has one clock sample for the
other, and the queue is empty. -/
def handshakeFinal (a b : PeerId) (tree : Height) (cfg : Config) (now : Nat) : Sim :=
  { aAddr := a
    bAddr := b
    alice :=
      { peers := [(b,
          { address := b
            local_address := a
            height := i32AsU64 (u64AsI32 0)
            time_offset := 0
            link := .Outbound
            state := .Handshake .Done
            last_active := some now })]
        config := cfg
        state := .Connecting
        tree_height := tree
        clock := [(b, 0)]
        connected := [b]
        disconnected := [] }
    bob :=
      { peers := [(a,
          { address := a
            local_address := b
            height := i32AsU64 (u64AsI32 0)
            time_offset := 0
            link := .Inbound
            state := .Handshake .Done
            last_active := some now })]
        config := cfg
        state := .Connecting
        tree_height := tree
        clock := [(a, 0)]
        connected := [a]
        disconnected := [] }
    queue := [] }

/-- Claim C1: for any two distinct addresses and any shared configuration,
running both engines through the in-memory simulator — one seeded with
`Connected(B, A, Outbound)`, the other with `Connected(A, B, Inbound)`, every
emitted message delivered back to its addressee as a `Received` event — drives
both peer records to `Handshake(Done)` within four message deliveries, with no
message left in flight. -/
theorem handshake_symmetry (a b : PeerId) (tree : Height) (cfg : Config)
    (now : Nat) (lt : Int) (rng : Nat) (hab : a ≠ b) :
    ∃ s : Sim,
      simHandshake a b tree cfg now lt rng = .ok s ∧
      s.queue = [] ∧
      (s.alice.peers.lookup b).map Peer.state = some (.Handshake .Done) ∧
      (s.bob.peers.lookup a).map Peer.state = some (.Handshake .Done) := by
  have hab' : (a == b) = false := by simpa using hab
  have hba : (b == a) = false := by simpa using (Ne.symm hab)
  have heq : simHandshake a b tree cfg now lt rng = .ok (handshakeFinal a b tree cfg now) := by
    simp [handshakeFinal, simHandshake, Sim.init, Sim.runFour, Sim.deliver, Rpc.new, Rpc.step,
      Rpc.connect, Rpc.receive, Rpc.version, Peer.new, Peer.receive_version,
      Peer.receive_verack, Rpc.syncCheck, Rpc.is_synced, Rpc.wrapOut, mapInsert,
      setInsert, setRemove, addSample, minHeights, List.lookup, PEER_CONNECTION_THRESHOLD,
      hab', hba, hab, Ne.symm hab]
  exact ⟨handshakeFinal a b tree cfg now, heq, rfl,
    by simp [handshakeFinal, List.lookup],
    by simp [handshakeFinal, List.lookup]⟩

/-- Witness for claim C1 at concrete addresses 0 and 1 with the sample
configuration. -/
theorem handshake_symmetry_witness :
    ∃ s : Sim,
      simHandshake 0 1 5 cfg7 0 2 0 = .ok s ∧
      s.queue = [] ∧
      (s.alice.peers.lookup 1).map Peer.state = some (.Handshake .Done) ∧
      (s.bob.peers.lookup 0).map Peer.state = some (.Handshake .Done) :=
  handshake_symmetry 0 1 5 cfg7 0 2 0 (by decide)

end Nakamoto
